import Mathlib

/-
Verification of the session-level TTS orchestrator (CSpxSynthesizer,
source/core/tts/synthesizer.cpp) against its natural-language specification.

The development is a shallow embedding of the C++ source:
* results, the per-kind subscriber tables and the event-firing functions are
  translated field by field from the source;
* the sequential methods (Speak, StartSpeaking, Write, Term,
  InitializeTtsEngineAdapter, DisconnectSynthesis*Callback) are embedded as
  pure state-transformers over an orchestrator state that carries a ghost
  trace of observable actions;
* the admission queue (PushRequestIntoQueue / WaitUntilRequestInFrontOfQueue /
  PopRequestFromQueue) is embedded a second time as a labelled transition
  system over interleavings of concurrently submitted requests, to settle the
  concurrency claims.

External collaborators that are not part of the source file (the audio output
sink, the engine adapters, GUID generation, CSpxSynthesisHelper::ParseUrl) are
modelled as parameters, exactly as the spec's section 6 treats them.
-/

namespace SpxSynthesizer

/-! ## Data model: request ids, result reasons, synthesis results -/

/-- Request identifier. In the source this is a GUID string minted by
PAL::CreateGuidWithoutDashes once per top-level request; GUID generation is
outside the source file, so requests are identified by an abstract token. -/
abbrev RequestId := Nat

/-- Result reason, from the ResultReason enumeration. The four reasons
dispatched by CSpxSynthesizer::FireResultEvent are listed first; the
enumeration in the SDK has further members (recognition reasons etc.), which
`recognizingSpeech`, `recognizedSpeech` and `noMatch` stand for. -/
inductive ResultReason
  | synthesizingAudioStarted
  | synthesizingAudio
  | synthesizingAudioCompleted
  | canceled
  | recognizingSpeech
  | recognizedSpeech
  | noMatch
deriving DecidableEq, Repr

/-- Status tag of CSpxAsyncOp (AOS_Started / AOS_Completed / AOS_Canceled). -/
inductive AsyncOpStatus
  | aosStarted
  | aosCompleted
  | aosCanceled
deriving DecidableEq, Repr

/-- Handle standing for the CSpxAsyncOp that StartSpeaking attaches onto the
returned Started result via ISpxSynthesisResultInit::SetFutureResult. -/
structure AsyncOpHandle where
  status : AsyncOpStatus
  requestId : RequestId
deriving DecidableEq, Repr

/-- Synthesis result (CSpxSynthesisResult), with the fields the verified
claims depend on: request id, reason, the audio chunk installed by
InitSynthesisResult, whether SetEvents has been called, and the optional
future attached by SetFutureResult. -/
structure SynthesisResult where
  requestId : RequestId
  reason : ResultReason
  audioBuffer : List Nat
  audioLength : Nat
  eventsAttached : Bool
  futureResult : Option AsyncOpHandle
deriving DecidableEq, Repr

/-! ## Event bus: per-kind subscriber tables -/

/-- Subscriber identity: the `void* object` key of the subscriber tables. -/
abbrev Identity := Nat

/-- A single registered callback inside an EventSignal. -/
abbrev Callback := Nat

/-- One per-kind subscriber table: the source's
`std::list<std::pair<void*, std::shared_ptr<SynthEvent_Type>>>`, a list of
(identity, signal) pairs where a signal is its list of connected callbacks.
ConnectSynthesis*Callback emplaces new identities at the front. -/
abbrev EventTable := List (Identity × List Callback)

/-- Effect of the Disconnect path on one entry's signal:
`EventSignal::Disconnect(callback)` removes the given callback when one is
passed, `EventSignal::DisconnectAll()` removes every callback when none is. -/
def disconnectFromSignal (sig : List Callback) (cb : Option Callback) : List Callback :=
  match cb with
  | some c => sig.filter (fun x => x ≠ c)
  | none => []

/-- The four result-event kinds of the subscriber tables. -/
inductive EventKind
  | started
  | synthesizing
  | completed
  | canceled
deriving DecidableEq, Repr

/-- Record of one subscriber callback invocation performed by
FireSynthesisEvent (one Signal delivery to one connected callback). -/
structure Invocation where
  kind : EventKind
  subscriber : Identity
  callback : Callback
  result : SynthesisResult
deriving DecidableEq, Repr

/-- Observable actions of the orchestrator methods, recorded as a ghost trace:
queue operations, event firings, the adapter invocation, the two blocking
waits on the output sink, and the forwarding of audio bytes to the sink. -/
inductive Action
  | pushRequest (r : RequestId)
  | waitFront (r : RequestId)
  | fireEvent (k : EventKind) (res : SynthesisResult)
  | adapterSpeak (r : RequestId) (text : String) (isSsml : Bool)
  | sinkWrite (buffer : List Nat) (size : Nat)
  | waitDone
  | popRequest
deriving DecidableEq, Repr

/-- Orchestrator state: the request queue (m_requestQueue), the four
subscriber tables, plus the ghost log of callback invocations and the ghost
action trace. -/
structure OrchState where
  requestQueue : List RequestId
  synthesisStarted : EventTable
  synthesizing : EventTable
  synthesisCompleted : EventTable
  synthesisCanceled : EventTable
  invocations : List Invocation
  actions : List Action
deriving DecidableEq, Repr

/-- Freshly constructed orchestrator: empty queue, no subscribers, nothing
observed yet (CSpxSynthesizer constructor). -/
def orchInit : OrchState :=
  { requestQueue := []
    synthesisStarted := []
    synthesizing := []
    synthesisCompleted := []
    synthesisCanceled := []
    invocations := []
    actions := [] }

/-- CSpxSynthesizer::CreateResult: builds a CSpxSynthesisResult, initialises
it with the request id, reason and audio chunk, and calls SetEvents on it
before returning (lines 494-511). Format metadata is read from the output
sink and not needed by any claim. -/
def createResult (reqId : RequestId) (reason : ResultReason)
    (buffer : List Nat) (len : Nat) : SynthesisResult :=
  { requestId := reqId
    reason := reason
    audioBuffer := buffer
    audioLength := len
    eventsAttached := true
    futureResult := none }

/-- ISpxSynthesisResultInit::SetEvents, as called on the adapter's result in
Speak and in StartSpeaking's background continuation. -/
def setEvents (res : SynthesisResult) : SynthesisResult :=
  { res with eventsAttached := true }

/-- ISpxSynthesisResultInit::SetFutureResult, as called by StartSpeaking on
the Started result. -/
def setFutureResult (res : SynthesisResult) (h : AsyncOpHandle) : SynthesisResult :=
  { res with futureResult := some h }

/-- The callback invocations produced by one FireSynthesisEvent call: the
table is walked entry by entry and every callback connected under an entry's
signal is invoked with the result (lines 539-556). -/
def signalInvocations (k : EventKind) (table : EventTable)
    (res : SynthesisResult) : List Invocation :=
  match table with
  | [] => []
  | e :: rest =>
      e.2.map (fun cb => ⟨k, e.1, cb, res⟩) ++ signalInvocations k rest res

/-- CSpxSynthesizer::FireSynthesisEvent: invoke every callback registered in
the given table with the result, recording the firing in the action trace. -/
def fireSynthesisEvent (s : OrchState) (k : EventKind) (table : EventTable)
    (res : SynthesisResult) : OrchState :=
  { s with
    invocations := s.invocations ++ signalInvocations k table res
    actions := s.actions ++ [Action.fireEvent k res] }

/-- CSpxSynthesizer::FireSynthesisStarted (lines 403-407). -/
def fireSynthesisStarted (s : OrchState) (res : SynthesisResult) : OrchState :=
  fireSynthesisEvent s EventKind.started s.synthesisStarted res

/-- CSpxSynthesizer::FireSynthesizing (lines 409-413). -/
def fireSynthesizing (s : OrchState) (res : SynthesisResult) : OrchState :=
  fireSynthesisEvent s EventKind.synthesizing s.synthesizing res

/-- CSpxSynthesizer::FireSynthesisCompleted (lines 415-419). -/
def fireSynthesisCompleted (s : OrchState) (res : SynthesisResult) : OrchState :=
  fireSynthesisEvent s EventKind.completed s.synthesisCompleted res

/-- CSpxSynthesizer::FireSynthesisCanceled (lines 421-425). -/
def fireSynthesisCanceled (s : OrchState) (res : SynthesisResult) : OrchState :=
  fireSynthesisEvent s EventKind.canceled s.synthesisCanceled res

/-- CSpxSynthesizer::FireResultEvent (lines 513-537): dispatch on the
result's reason; the switch has a default branch that does nothing. -/
def fireResultEvent (s : OrchState) (res : SynthesisResult) : OrchState :=
  match res.reason with
  | ResultReason.synthesizingAudioStarted => fireSynthesisStarted s res
  | ResultReason.synthesizingAudio => fireSynthesizing s res
  | ResultReason.synthesizingAudioCompleted => fireSynthesisCompleted s res
  | ResultReason.canceled => fireSynthesisCanceled s res
  | _ => s

/-- Common body of the four DisconnectSynthesis*Callback methods
(lines 283-401; the four are textually identical up to the table member they
operate on): scan the table for the first entry whose identity equals
`object`; if none is found do nothing; otherwise disconnect the given
callback (or all callbacks when none is given) from that entry's signal, and
when the signal is left with no connected callback remove the entry
entirely. -/
def disconnectCallback (table : EventTable) (object : Identity)
    (cb : Option Callback) : EventTable :=
  match table with
  | [] => []
  | (i, sig) :: rest =>
      if i = object then
        if (disconnectFromSignal sig cb).isEmpty then rest
        else (i, disconnectFromSignal sig cb) :: rest
      else (i, sig) :: disconnectCallback rest object cb

/-! ## Sequential lifecycle methods as trace-producing state transformers -/

/-- CSpxSynthesizer::PushRequestIntoQueue (lines 462-467). -/
def pushRequestIntoQueue (s : OrchState) (r : RequestId) : OrchState :=
  { s with
    requestQueue := s.requestQueue ++ [r]
    actions := s.actions ++ [Action.pushRequest r] }

/-- CSpxSynthesizer::WaitUntilRequestInFrontOfQueue (lines 469-485): blocks
the calling thread until the request is the queue front. In this sequential
embedding the wait is recorded in the trace; the blocking semantics itself is
settled by the labelled transition system below. -/
def waitUntilRequestInFrontOfQueue (s : OrchState) (r : RequestId) : OrchState :=
  { s with actions := s.actions ++ [Action.waitFront r] }

/-- CSpxSynthesizer::PopRequestFromQueue (lines 487-492): removes the queue
front and wakes all waiters. -/
def popRequestFromQueue (s : OrchState) : OrchState :=
  { s with
    requestQueue := s.requestQueue.tail
    actions := s.actions ++ [Action.popRequest] }

/-- The backend adapter's Speak contract
(`Speak(text, isSsml, requestId) -> Result`); the adapter implementations are
outside the source file and the spec treats them as opaque collaborators. -/
abbrev Adapter := String → Bool → RequestId → SynthesisResult

/-- The call `m_ttsAdapter->Speak(text, isSsml, requestId)`, recorded in the
trace. -/
def adapterSpeakCall (s : OrchState) (adapter : Adapter) (text : String)
    (isSsml : Bool) (r : RequestId) : SynthesisResult × OrchState :=
  (adapter text isSsml r,
   { s with actions := s.actions ++ [Action.adapterSpeak r text isSsml] })

/-- The call `m_audioOutput->WaitUntilDone()`, recorded in the trace. -/
def waitUntilDone (s : OrchState) : OrchState :=
  { s with actions := s.actions ++ [Action.waitDone] }

/-- CSpxSynthesizer::Speak (lines 80-113): push the fresh request id, wait
for the queue front, fire the Started result, invoke the adapter, wait for
the output sink, attach the event interface to the adapter's result, fire the
terminal result, pop the queue, and return the adapter's result. -/
def speak (s : OrchState) (adapter : Adapter) (text : String) (isSsml : Bool)
    (reqId : RequestId) : SynthesisResult × OrchState :=
  let s1 := pushRequestIntoQueue s reqId
  let s2 := waitUntilRequestInFrontOfQueue s1 reqId
  let startedResult := createResult reqId ResultReason.synthesizingAudioStarted [] 0
  let s3 := fireResultEvent s2 startedResult
  let ds := adapterSpeakCall s3 adapter text isSsml reqId
  let s5 := waitUntilDone ds.2
  let doneResult := setEvents ds.1
  let s6 := fireResultEvent s5 doneResult
  let s7 := popRequestFromQueue s6
  (doneResult, s7)

/-- Value of a StartSpeaking call: the returned Started result, the
orchestrator state at the moment StartSpeaking returns (background work not
yet run), and the background continuation handed to std::async. -/
structure StartSpeakingOutcome where
  result : SynthesisResult
  syncState : OrchState
  background : OrchState → SynthesisResult × OrchState

/-- CSpxSynthesizer::StartSpeaking (lines 126-169): push, wait for the queue
front and fire the Started result synchronously on the calling thread; hand
the rest of the lifecycle (adapter invocation, output drain, terminal fire,
pop) to a background continuation; attach a CSpxAsyncOp with status
AOS_Started onto the Started result and return it. -/
def startSpeaking (s : OrchState) (adapter : Adapter) (text : String)
    (isSsml : Bool) (reqId : RequestId) : StartSpeakingOutcome :=
  let s1 := pushRequestIntoQueue s reqId
  let s2 := waitUntilRequestInFrontOfQueue s1 reqId
  let startedResult := createResult reqId ResultReason.synthesizingAudioStarted [] 0
  let s3 := fireResultEvent s2 startedResult
  let bg := fun (st : OrchState) =>
    let ds := adapterSpeakCall st adapter text isSsml reqId
    let t2 := waitUntilDone ds.2
    let doneResult := setEvents ds.1
    let t3 := fireResultEvent t2 doneResult
    let t4 := popRequestFromQueue t3
    (doneResult, t4)
  let handle : AsyncOpHandle := { status := AsyncOpStatus.aosStarted, requestId := reqId }
  { result := setFutureResult startedResult handle
    syncState := s3
    background := bg }

/-- CSpxSynthesizer::Write (lines 436-446), invoked by the active adapter for
each audio chunk: construct a Synthesizing result carrying exactly the chunk,
fire it, then forward the chunk to the output sink and return the byte count
the sink reported. The sink's accounting (`m_audioOutput->Write`) is the
collaborator function `sinkAccept`. -/
def write (s : OrchState) (reqId : RequestId) (buffer : List Nat) (size : Nat)
    (sinkAccept : List Nat → Nat → Nat) : Nat × OrchState :=
  let res := createResult reqId ResultReason.synthesizingAudio buffer size
  let s1 := fireResultEvent s res
  let s2 := { s1 with actions := s1.actions ++ [Action.sinkWrite buffer size] }
  (sinkAccept buffer size, s2)

/-! ## Adapter selection (InitializeTtsEngineAdapter) -/

/-- Error codes thrown by the embedded methods: SPXERR_NOT_FOUND from adapter
selection, and the null-pointer dereference of an unset member. -/
inductive SpxError
  | notFound
  | nullPointerAccess
deriving DecidableEq, Repr

/-- The four backend adapter variants that InitializeTtsEngineAdapter can
construct, in source order: CSpxRestTtsEngineAdapter, CSpxUspTtsEngineAdapter
(streaming/WebSocket), CSpxMockTtsEngineAdapter, CSpxLocalTtsEngineAdapter. -/
inductive TtsAdapterKind
  | rest
  | usp
  | mock
  | localAdapter
deriving DecidableEq, Repr

/-- Protocol of a parsed endpoint URL (CSpxSynthesisHelper::ParseUrl result;
the helper lives outside this source file, so the parsed protocol is an input
of the selection). -/
inductive UrlProtocol
  | http
  | webSocket
  | other
deriving DecidableEq, Repr

/-- Inputs read by InitializeTtsEngineAdapter: the configured endpoint, the
protocol ParseUrl reports for it, and the eight boolean override properties
(an SDK-INTERNAL and a CARBON-INTERNAL key for each of mock, REST, USP and
local). -/
structure AdapterInputs where
  endpoint : String
  endpointProtocol : UrlProtocol
  mockSdkFlag : Bool
  mockCarbonFlag : Bool
  restSdkFlag : Bool
  restCarbonFlag : Bool
  uspSdkFlag : Bool
  uspCarbonFlag : Bool
  localSdkFlag : Bool
  localCarbonFlag : Bool
deriving DecidableEq, Repr

/-- Endpoint scheme hint for REST: tryRest is seeded true when the endpoint
is nonempty and parses to an HTTP URL (lines 570-582). -/
def schemeTryRest (inp : AdapterInputs) : Bool :=
  if inp.endpoint = "" then false
  else
    match inp.endpointProtocol with
    | UrlProtocol.http => true
    | _ => false

/-- Endpoint scheme hint for the streaming (USP/WebSocket) variant
(lines 570-582). -/
def schemeTryUsp (inp : AdapterInputs) : Bool :=
  if inp.endpoint = "" then false
  else
    match inp.endpointProtocol with
    | UrlProtocol.webSocket => true
    | _ => false

/-- tryMock: the OR of the two mock override properties (lines 584-585). -/
def effTryMock (inp : AdapterInputs) : Bool :=
  inp.mockSdkFlag || inp.mockCarbonFlag

/-- tryRest after OR-ing in the two REST override properties (lines 586-587),
before the default rule. -/
def baseTryRest (inp : AdapterInputs) : Bool :=
  schemeTryRest inp || inp.restSdkFlag || inp.restCarbonFlag

/-- tryUsp after OR-ing in the two USP override properties (lines 588-589). -/
def baseTryUsp (inp : AdapterInputs) : Bool :=
  schemeTryUsp inp || inp.uspSdkFlag || inp.uspCarbonFlag

/-- tryLocal: the OR of the two local override properties (lines 590-591). -/
def effTryLocal (inp : AdapterInputs) : Bool :=
  inp.localSdkFlag || inp.localCarbonFlag

/-- Final tryRest: when none of tryMock/tryRest/tryUsp/tryLocal is set, the
session defaults to REST (lines 593-597). -/
def effTryRest (inp : AdapterInputs) : Bool :=
  if !effTryMock inp && !baseTryRest inp && !baseTryUsp inp && !effTryLocal inp then true
  else baseTryRest inp

/-- Final tryUsp (unchanged by the default rule). -/
def effTryUsp (inp : AdapterInputs) : Bool :=
  baseTryUsp inp

/-- The four guarded construction attempts of InitializeTtsEngineAdapter
(lines 599-621): each runs only while m_ttsAdapter is still null, in the
fixed order REST, USP, mock, local. The second component is the ghost list of
variants actually constructed, in construction order. -/
def constructAdapterChain (cur : Option TtsAdapterKind)
    (tryRest tryUsp tryMock tryLocal : Bool) :
    Option TtsAdapterKind × List TtsAdapterKind :=
  let step1 :=
    if cur.isNone && tryRest then (some TtsAdapterKind.rest, [TtsAdapterKind.rest])
    else (cur, ([] : List TtsAdapterKind))
  let step2 :=
    if step1.1.isNone && tryUsp then (some TtsAdapterKind.usp, step1.2 ++ [TtsAdapterKind.usp])
    else step1
  let step3 :=
    if step2.1.isNone && tryMock then (some TtsAdapterKind.mock, step2.2 ++ [TtsAdapterKind.mock])
    else step2
  let step4 :=
    if step3.1.isNone && tryLocal then (some TtsAdapterKind.localAdapter, step3.2 ++ [TtsAdapterKind.localAdapter])
    else step3
  step4

/-- CSpxSynthesizer::InitializeTtsEngineAdapter (lines 566-625): compute the
try flags from the endpoint and the override properties, apply the
REST-by-default rule, attempt the four constructions in order, and throw
SPXERR_NOT_FOUND when no adapter was constructed. -/
def initializeTtsEngineAdapter (cur : Option TtsAdapterKind)
    (inp : AdapterInputs) :
    Except SpxError (Option TtsAdapterKind × List TtsAdapterKind) :=
  let r := constructAdapterChain cur (effTryRest inp) (effTryUsp inp)
      (effTryMock inp) (effTryLocal inp)
  if r.1.isNone then Except.error SpxError.notFound else Except.ok r

/-- Resolution policy exactly as the spec words it (section 4.4, first match
wins and stops evaluation): REST, then streaming/WebSocket, then mock, then
local. This definition follows the spec, to be compared with the chain
translated from the source. -/
def resolvedPrecedence (tryRest tryUsp tryMock tryLocal : Bool) :
    Option TtsAdapterKind :=
  if tryRest then some TtsAdapterKind.rest
  else if tryUsp then some TtsAdapterKind.usp
  else if tryMock then some TtsAdapterKind.mock
  else if tryLocal then some TtsAdapterKind.localAdapter
  else none

/-! ## Orchestrator lifetime: lazy adapter construction -/

/-- The operations of one orchestrator lifetime that could touch the adapter
member, after construction. -/
inductive SynthOp
  | initOp (inp : AdapterInputs)
  | speakOp
  | speakAsyncOp
  | startSpeakingOp
  | startSpeakingAsyncOp
  | setOutputOp
  | closeOp
  | termOp

/-- Adapter-related lifetime state: the m_ttsAdapter member and a ghost count
of adapter constructions performed so far. -/
structure SynthLife where
  ttsAdapter : Option TtsAdapterKind
  constructions : Nat
deriving DecidableEq, Repr

/-- CSpxSynthesizer constructor (lines 26-30): m_ttsAdapter starts null. -/
def createSynth : SynthLife :=
  { ttsAdapter := none, constructions := 0 }

/-- CSpxSynthesizer::EnsureTtsEngineAdapter (lines 558-564): construct the
adapter only when m_ttsAdapter is null. A construction failure
(SPXERR_NOT_FOUND) propagates and leaves the member unchanged. -/
def ensureTtsEngineAdapter (s : SynthLife) (inp : AdapterInputs) : SynthLife :=
  if s.ttsAdapter = none then
    match initializeTtsEngineAdapter s.ttsAdapter inp with
    | Except.ok r => { ttsAdapter := r.1, constructions := s.constructions + r.2.length }
    | Except.error _ => s
  else s

/-- Effect of each orchestrator operation on the adapter member. Init
(lines 39-50) calls EnsureTtsEngineAdapter. Speak, SpeakAsync, StartSpeaking
and StartSpeakingAsync (lines 80-180) read m_ttsAdapter but never assign it.
SetOutput (lines 74-78) and Close (lines 182-185) do not touch it. Term
(lines 52-57) calls ReleaseTtsEngineAdapter, which calls Term() on a present
adapter without clearing the member and constructs nothing (lines 627-633). -/
def applySynthOp (s : SynthLife) : SynthOp → SynthLife
  | SynthOp.initOp inp => ensureTtsEngineAdapter s inp
  | SynthOp.speakOp => s
  | SynthOp.speakAsyncOp => s
  | SynthOp.startSpeakingOp => s
  | SynthOp.startSpeakingAsyncOp => s
  | SynthOp.setOutputOp => s
  | SynthOp.closeOp => s
  | SynthOp.termOp => s

/-- One orchestrator lifetime: the constructor followed by a sequence of
operations. -/
def runSynthOps (ops : List SynthOp) : SynthLife :=
  ops.foldl applySynthOp createSynth

/-! ## Teardown (Term) -/

/-- State of the attached audio output sink. -/
structure AudioOutputState where
  closed : Bool
deriving DecidableEq, Repr

/-- Adapter, sink and site members as seen by Term: each may be unset when
Init or SetOutput was never called. -/
structure TermContext where
  ttsAdapter : Option TtsAdapterKind
  audioOutput : Option AudioOutputState
  siteKeepAlive : Bool
deriving DecidableEq, Repr

/-- CSpxSynthesizer::ReleaseTtsEngineAdapter (lines 627-633): call Term() on
the adapter only when it is present; the member itself is kept. This never
fails. -/
def releaseTtsEngineAdapter (a : Option TtsAdapterKind) : Option TtsAdapterKind :=
  match a with
  | some ad => some ad
  | none => none

/-- The call `m_audioOutput->Close()` in Term (line 55): the member is a
shared_ptr that is null until SetOutput is called, and the call is not
guarded, so with no sink ever set it dereferences null. Closing a sink that
is present succeeds; per the sink's collaborator contract Close is idempotent,
so an already-closed sink is closed again without error. -/
def closeAudioOutput : Option AudioOutputState → Except SpxError AudioOutputState
  | none => Except.error SpxError.nullPointerAccess
  | some _ => Except.ok { closed := true }

/-- CSpxSynthesizer::Term (lines 52-57): release the adapter, close the audio
output, release the site keep-alive. -/
def termSynthesizer (s : TermContext) : Except SpxError TermContext :=
  let a := releaseTtsEngineAdapter s.ttsAdapter
  match closeAudioOutput s.audioOutput with
  | Except.error e => Except.error e
  | Except.ok o =>
      Except.ok { ttsAdapter := a, audioOutput := some o, siteKeepAlive := false }

/-! ## The admission queue under concurrency: a labelled transition system

Each concurrently submitted Speak-family request executes the same lifecycle
template on some thread: PushRequestIntoQueue, then
WaitUntilRequestInFrontOfQueue (which returns only when the request id is the
queue front, re-checking the predicate on every wake), then the Started fire,
the adapter invocation with the output drain and the terminal fire, and
finally PopRequestFromQueue (which removes the front and wakes all waiters).
The four calling conventions differ only in which thread runs which part of
the template, so interleavings of these per-request steps cover all of them.
The ghost logs record submission order, Started-firing order and release
order. -/

/-- Progress of one request through the lifecycle template. -/
inductive Phase
  | notSubmitted
  | waiting
  | entered
  | startedFired
  | terminalFired
  | released
deriving DecidableEq, Repr

/-- Global state of the admission queue system: each request's phase, the
FIFO queue m_requestQueue, and ghost logs of submissions, Started firings and
releases, each in occurrence order. -/
structure QState where
  phase : RequestId → Phase
  queue : List RequestId
  submitLog : List RequestId
  startedLog : List RequestId
  releaseLog : List RequestId

/-- Initial state: nothing submitted. -/
def qInit : QState :=
  { phase := fun _ => Phase.notSubmitted
    queue := []
    submitLog := []
    startedLog := []
    releaseLog := [] }

/-- Update one request's phase. -/
def setPhase (f : RequestId → Phase) (r : RequestId) (p : Phase) :
    RequestId → Phase :=
  fun x => if x = r then p else f x

/-- PushRequestIntoQueue by request r: append r to the queue tail. -/
def submitQ (s : QState) (r : RequestId) : QState :=
  { s with
    phase := setPhase s.phase r Phase.waiting
    queue := s.queue ++ [r]
    submitLog := s.submitLog ++ [r] }

/-- WaitUntilRequestInFrontOfQueue returning for request r: enabled only when
r is the queue front. -/
def enterQ (s : QState) (r : RequestId) : QState :=
  { s with phase := setPhase s.phase r Phase.entered }

/-- Request r fires its Started event (FireResultEvent on the Started
result, after the wait returned). -/
def fireStartedQ (s : QState) (r : RequestId) : QState :=
  { s with
    phase := setPhase s.phase r Phase.startedFired
    startedLog := s.startedLog ++ [r] }

/-- Request r completes its adapter invocation, output drain and terminal
fire. -/
def finishQ (s : QState) (r : RequestId) : QState :=
  { s with phase := setPhase s.phase r Phase.terminalFired }

/-- PopRequestFromQueue by request r: remove the queue front and wake all
waiters. -/
def releaseQ (s : QState) (r : RequestId) : QState :=
  { s with
    phase := setPhase s.phase r Phase.released
    queue := s.queue.tail
    releaseLog := s.releaseLog ++ [r] }

/-- Interleaving semantics: any request that is due for its next template
step may take it; WaitUntilRequestInFrontOfQueue returns only when the
request is the queue front. -/
inductive QStep : QState → QState → Prop
  | submit (s : QState) (r : RequestId) (h : s.phase r = Phase.notSubmitted) :
      QStep s (submitQ s r)
  | enter (s : QState) (r : RequestId) (h : s.phase r = Phase.waiting)
      (hq : s.queue.head? = some r) : QStep s (enterQ s r)
  | fireStarted (s : QState) (r : RequestId) (h : s.phase r = Phase.entered) :
      QStep s (fireStartedQ s r)
  | finish (s : QState) (r : RequestId) (h : s.phase r = Phase.startedFired) :
      QStep s (finishQ s r)
  | release (s : QState) (r : RequestId) (h : s.phase r = Phase.terminalFired) :
      QStep s (releaseQ s r)

/-- States reachable from the initial state by interleaved steps. -/
inductive Reach : QState → Prop
  | refl : Reach qInit
  | step {s t : QState} : Reach s → QStep s t → Reach t

/-- Phases of a request that is in the queue (submitted, not yet released). -/
def InQueuePhase (p : Phase) : Prop :=
  p = Phase.waiting ∨ p = Phase.entered ∨ p = Phase.startedFired ∨ p = Phase.terminalFired

/-- Phases of a request inside its adapter-invocation window: after
WaitUntilRequestInFrontOfQueue returned and before PopRequestFromQueue. -/
def ActivePhase (p : Phase) : Prop :=
  p = Phase.entered ∨ p = Phase.startedFired ∨ p = Phase.terminalFired

/-- Request r is inside its adapter-invocation window in state s. -/
def ActiveWindow (s : QState) (r : RequestId) : Prop :=
  ActivePhase (s.phase r)

/-- The queue front when it has already fired Started but not yet released:
the portion of the Started log beyond the releases. -/
def frontStarted (s : QState) : List RequestId :=
  match s.queue with
  | [] => []
  | r :: _ =>
      if s.phase r = Phase.startedFired ∨ s.phase r = Phase.terminalFired then [r]
      else []

/-- Inductive invariant coupling the queue, the phases and the ghost logs. -/
structure QInv (s : QState) : Prop where
  split : s.submitLog = s.releaseLog ++ s.queue
  memq : ∀ r, r ∈ s.queue ↔ InQueuePhase (s.phase r)
  nodup : s.queue.Nodup
  front : ∀ r, ActivePhase (s.phase r) → s.queue.head? = some r
  started : s.startedLog = s.releaseLog ++ frontStarted s

/-! ## Concrete sample inputs used by the witnesses -/

/-- Concrete selection inputs: empty endpoint, mock and local override
properties set, REST and USP override properties unset. -/
def c5Input : AdapterInputs :=
  { endpoint := ""
    endpointProtocol := UrlProtocol.http
    mockSdkFlag := true
    mockCarbonFlag := false
    restSdkFlag := false
    restCarbonFlag := false
    uspSdkFlag := false
    uspCarbonFlag := false
    localSdkFlag := true
    localCarbonFlag := false }

/-- A concrete adapter collaborator whose Speak always reports a completed
synthesis. -/
def sampleAdapter : Adapter := fun _ _ reqId =>
  { requestId := reqId
    reason := ResultReason.synthesizingAudioCompleted
    audioBuffer := [1, 2]
    audioLength := 2
    eventsAttached := false
    futureResult := none }

/-- Invariant of the adapter member over one orchestrator lifetime: at most
one construction ever happens, and the adapter is present exactly when one
construction has happened. -/
def lifeInv (t : SynthLife) : Prop :=
  t.constructions ≤ 1 ∧ (t.ttsAdapter = none → t.constructions = 0) ∧
    (t.ttsAdapter ≠ none → t.constructions = 1)

/-! ## Theorems -/

/-- Claim C10: firing a result whose reason is outside the four dispatched
kinds (SynthesizingAudioStarted, SynthesizingAudio,
SynthesizingAudioCompleted, Canceled) through FireResultEvent is a silent
no-op: the orchestrator state is unchanged, so no subscriber callback of any
kind is invoked and no error is raised. -/
theorem fireResultEvent_undispatched_noop (s : OrchState) (res : SynthesisResult)
    (h : res.reason ≠ ResultReason.synthesizingAudioStarted ∧
         res.reason ≠ ResultReason.synthesizingAudio ∧
         res.reason ≠ ResultReason.synthesizingAudioCompleted ∧
         res.reason ≠ ResultReason.canceled) :
    fireResultEvent s res = s := by
  obtain ⟨rid, reason, ab, al, ea, fr⟩ := res
  obtain ⟨h1, h2, h3, h4⟩ := h
  cases reason <;> simp_all [fireResultEvent]

/-- Witness for C10 at a concrete undispatched reason. -/
theorem fireResultEvent_undispatched_noop_witness :
    fireResultEvent orchInit
      { requestId := 0, reason := ResultReason.noMatch, audioBuffer := [],
        audioLength := 0, eventsAttached := false, futureResult := none } = orchInit :=
  fireResultEvent_undispatched_noop _ _ ⟨by decide, by decide, by decide, by decide⟩

/-- Claim C8: for every event kind (the four Disconnect methods share this
body), disconnecting with an identity that has no entry in the table is a
no-op that leaves the table unchanged and raises no error; and whenever the
disconnect leaves the identity's signal with zero callbacks, the identity's
entry is removed entirely, so the targeted identity never remains in the
table with an empty signal. -/
theorem disconnect_unknown_noop_and_empty_pruned (table : EventTable)
    (object : Identity) (cb : Option Callback) :
    ((∀ e ∈ table, e.1 ≠ object) → disconnectCallback table object cb = table) ∧
    ((table.map Prod.fst).Nodup →
      ∀ sig, (object, sig) ∈ disconnectCallback table object cb → sig ≠ []) := by
  induction table with
  | nil =>
      refine ⟨fun _ => rfl, fun _ sig hm => ?_⟩
      simp [disconnectCallback] at hm
  | cons e rest ih =>
      obtain ⟨i, sg⟩ := e
      constructor
      · intro hno
        have hi : i ≠ object := hno (i, sg) (List.mem_cons_self _ _)
        simp only [disconnectCallback, if_neg hi]
        rw [ih.1 (fun x hx => hno x (List.mem_cons_of_mem _ hx))]
      · intro hnd sig hm
        rw [List.map_cons, List.nodup_cons] at hnd
        by_cases hio : i = object
        · subst hio
          simp only [disconnectCallback, if_pos rfl] at hm
          by_cases he : (disconnectFromSignal sg cb).isEmpty = true
          · rw [if_pos he] at hm
            exact absurd (List.mem_map_of_mem Prod.fst hm) hnd.1
          · rw [if_neg he] at hm
            rcases List.mem_cons.mp hm with heq | hmem
            · have hs : sig = disconnectFromSignal sg cb := congrArg Prod.snd heq
              subst hs
              intro h0
              exact he (by rw [h0]; rfl)
            · exact absurd (List.mem_map_of_mem Prod.fst hmem) hnd.1
        · simp only [disconnectCallback, if_neg hio] at hm
          rcases List.mem_cons.mp hm with heq | hmem
          · exact absurd (congrArg Prod.fst heq).symm hio
          · exact ih.2 hnd.2 sig hmem

/-- Witness for C8: disconnecting identity 2, never connected, from a table
holding only identity 1 changes nothing, and leaves no empty entry for 2. -/
theorem disconnect_unknown_noop_and_empty_pruned_witness :
    disconnectCallback [(1, [5])] 2 none = [(1, [5])] ∧
    ((2, ([] : List Callback)) ∈ disconnectCallback [(1, [5])] 2 none → False) := by
  have h := disconnect_unknown_noop_and_empty_pruned [(1, [5])] 2 none
  exact ⟨h.1 (by decide), fun hm => h.2 (by decide) [] hm rfl⟩

/-- Claim C3: for every audio chunk the active adapter passes to Write, Write
first constructs a Synthesizing result carrying exactly that chunk's buffer
and size and fires it through the event bus, and only afterwards forwards
the chunk to the output sink (the fire action strictly precedes the sink
write in the trace); Write returns exactly the byte count the sink's Write
reported as accepted. -/
theorem write_fires_event_then_forwards_chunk (s : OrchState) (reqId : RequestId)
    (buffer : List Nat) (size : Nat) (sinkAccept : List Nat → Nat → Nat) :
    (write s reqId buffer size sinkAccept).1 = sinkAccept buffer size ∧
    (write s reqId buffer size sinkAccept).2.actions =
      s.actions ++
        [Action.fireEvent EventKind.synthesizing
          (createResult reqId ResultReason.synthesizingAudio buffer size),
         Action.sinkWrite buffer size] ∧
    (createResult reqId ResultReason.synthesizingAudio buffer size).audioBuffer = buffer ∧
    (createResult reqId ResultReason.synthesizingAudio buffer size).audioLength = size ∧
    (createResult reqId ResultReason.synthesizingAudio buffer size).reason =
      ResultReason.synthesizingAudio := by
  refine ⟨rfl, ?_, rfl, rfl, rfl⟩
  simp [write, fireResultEvent, createResult, fireSynthesizing, fireSynthesisEvent]

/-- Claim C4: with an empty endpoint and all override flags false, adapter
selection resolves to the REST variant (and constructs only it), whatever
protocol the URL parser would report. -/
theorem default_selection_is_rest (p : UrlProtocol) :
    initializeTtsEngineAdapter none
      { endpoint := "", endpointProtocol := p,
        mockSdkFlag := false, mockCarbonFlag := false,
        restSdkFlag := false, restCarbonFlag := false,
        uspSdkFlag := false, uspCarbonFlag := false,
        localSdkFlag := false, localCarbonFlag := false } =
      Except.ok (some TtsAdapterKind.rest, [TtsAdapterKind.rest]) := by
  cases p <;> rfl

/-- The guarded construction chain, started with no adapter, constructs
exactly the precedence-first variant whose try flag holds. -/
theorem constructAdapterChain_from_none (tr tu tm tl : Bool) :
    constructAdapterChain none tr tu tm tl =
      match resolvedPrecedence tr tu tm tl with
      | some k => (some k, [k])
      | none => (none, []) := by
  cases tr <;> cases tu <;> cases tm <;> cases tl <;> rfl

/-- Claim C5: adapter selection evaluates the variants in the fixed
precedence order REST, streaming/USP, mock, local, constructing exactly the
first variant whose condition holds and never constructing a later variant
afterwards (the constructed list is the singleton of the first match); in
particular when the mock and local flags hold and neither the REST nor the
streaming condition does, the mock variant is selected over local. -/
theorem selection_precedence_first_match (inp : AdapterInputs) :
    (initializeTtsEngineAdapter none inp =
      match resolvedPrecedence (effTryRest inp) (effTryUsp inp) (effTryMock inp)
          (effTryLocal inp) with
      | some k => Except.ok (some k, [k])
      | none => Except.error SpxError.notFound) ∧
    (effTryRest inp = false → effTryUsp inp = false → effTryMock inp = true →
      effTryLocal inp = true →
      initializeTtsEngineAdapter none inp =
        Except.ok (some TtsAdapterKind.mock, [TtsAdapterKind.mock])) := by
  constructor
  · unfold initializeTtsEngineAdapter
    rw [constructAdapterChain_from_none]
    cases h : resolvedPrecedence (effTryRest inp) (effTryUsp inp) (effTryMock inp)
        (effTryLocal inp) with
    | none => rfl
    | some k => rfl
  · intro h1 h2 h3 h4
    unfold initializeTtsEngineAdapter
    rw [constructAdapterChain_from_none, h1, h2, h3, h4]
    rfl

/-- Witness for C5 at concrete inputs with mock and local flags set. -/
theorem selection_precedence_first_match_witness :
    initializeTtsEngineAdapter none c5Input =
      Except.ok (some TtsAdapterKind.mock, [TtsAdapterKind.mock]) :=
  (selection_precedence_first_match c5Input).2 rfl rfl rfl rfl

/-- Claim C9 (code bug evaluation): Term on an orchestrator whose output sink
was never set dereferences the null m_audioOutput and fails, contradicting
the claim that teardown never fails in every state; on a state with a sink
present (even already closed) and no adapter, Term succeeds: releasing the
absent adapter and re-closing the closed sink are no-ops. -/
theorem term_null_sink_fails_guarded_parts_succeed :
    termSynthesizer ⟨none, none, true⟩ = Except.error SpxError.nullPointerAccess ∧
    termSynthesizer ⟨none, some ⟨true⟩, true⟩ =
      Except.ok (⟨none, some ⟨true⟩, false⟩ : TermContext) :=
  ⟨rfl, rfl⟩

/-- An InitializeTtsEngineAdapter run that starts with no adapter and
succeeds has constructed exactly one variant and installed it. -/
theorem initializeTtsEngineAdapter_from_none_ok (inp : AdapterInputs)
    (r : Option TtsAdapterKind × List TtsAdapterKind)
    (h : initializeTtsEngineAdapter none inp = Except.ok r) :
    ∃ k, r = (some k, [k]) := by
  unfold initializeTtsEngineAdapter at h
  rw [constructAdapterChain_from_none] at h
  cases hp : resolvedPrecedence (effTryRest inp) (effTryUsp inp) (effTryMock inp)
      (effTryLocal inp) with
  | none => rw [hp] at h; exact absurd h (by simp)
  | some k =>
      rw [hp] at h
      simp only [Option.isNone_some, Bool.false_eq_true, if_false, Except.ok.injEq] at h
      exact ⟨k, h.symm⟩

/-- The lifetime invariant holds initially. -/
theorem lifeInv_create : lifeInv createSynth :=
  ⟨Nat.zero_le 1, fun _ => rfl, fun h => absurd rfl h⟩

/-- Every orchestrator operation preserves the lifetime invariant. -/
theorem lifeInv_apply (t : SynthLife) (op : SynthOp) (h : lifeInv t) :
    lifeInv (applySynthOp t op) := by
  cases op with
  | initOp inp =>
      show lifeInv (ensureTtsEngineAdapter t inp)
      unfold ensureTtsEngineAdapter
      by_cases ha : t.ttsAdapter = none
      · rw [if_pos ha, ha]
        cases hi : initializeTtsEngineAdapter none inp with
        | error e => exact h
        | ok r =>
            obtain ⟨k, rfl⟩ := initializeTtsEngineAdapter_from_none_ok inp r hi
            have hc0 : t.constructions = 0 := h.2.1 ha
            refine ⟨?_, ?_, ?_⟩
            · show t.constructions + 1 ≤ 1
              rw [hc0]
            · intro hnone
              exact absurd hnone (by simp)
            · intro _
              show t.constructions + 1 = 1
              rw [hc0]
      · rw [if_neg ha]
        exact h
  | speakOp => exact h
  | speakAsyncOp => exact h
  | startSpeakingOp => exact h
  | startSpeakingAsyncOp => exact h
  | setOutputOp => exact h
  | closeOp => exact h
  | termOp => exact h

/-- The lifetime invariant holds after any operation sequence. -/
theorem lifeInv_run (ops : List SynthOp) : lifeInv (runSynthOps ops) := by
  unfold runSynthOps

  have key : ∀ t, lifeInv t → lifeInv (List.foldl applySynthOp t ops) := by
    induction ops with
    | nil => exact fun t ht => ht
    | cons op rest ih => exact fun t ht => ih (applySynthOp t op) (lifeInv_apply t op ht)
  exact key createSynth lifeInv_create

/-- Counterexample to claim C7 as stated: none of the four Speak-family
calls constructs the adapter when it is absent — after an orchestrator is
created and all four Speak-family operations run without Init, the adapter
member is still null and no construction has happened (the construction
happens in Init, via EnsureTtsEngineAdapter, not on first Speak). -/
theorem speak_family_does_not_construct_adapter :
    (runSynthOps [SynthOp.speakOp, SynthOp.speakAsyncOp, SynthOp.startSpeakingOp,
        SynthOp.startSpeakingAsyncOp]).ttsAdapter = none ∧
    (runSynthOps [SynthOp.speakOp, SynthOp.speakAsyncOp, SynthOp.startSpeakingOp,
        SynthOp.startSpeakingAsyncOp]).constructions = 0 :=
  ⟨rfl, rfl⟩

/-- Claim C7 as amended: the backend adapter is absent when the orchestrator
is created and is constructed lazily by Init (via EnsureTtsEngineAdapter) if
absent; over any sequence of operations it is constructed at most once, a
present adapter accounts for exactly one construction, and no operation ever
constructs a second adapter while one exists (every operation leaves a state
with a present adapter unchanged). -/
theorem adapter_absent_at_create_constructed_once (ops : List SynthOp) :
    createSynth.ttsAdapter = none ∧
    (runSynthOps ops).constructions ≤ 1 ∧
    ((runSynthOps ops).ttsAdapter ≠ none → (runSynthOps ops).constructions = 1) ∧
    (∀ t : SynthLife, ∀ op : SynthOp, t.ttsAdapter ≠ none → applySynthOp t op = t) := by
  have h := lifeInv_run ops
  refine ⟨rfl, h.1, h.2.2, ?_⟩
  intro t op ht
  cases op with
  | initOp inp =>
      show ensureTtsEngineAdapter t inp = t
      unfold ensureTtsEngineAdapter
      rw [if_neg ht]
  | speakOp => rfl
  | speakAsyncOp => rfl
  | startSpeakingOp => rfl
  | startSpeakingAsyncOp => rfl
  | setOutputOp => rfl
  | closeOp => rfl
  | termOp => rfl

/-- Witness for the amended C7: Init with concrete inputs performs the one
construction, and Term on a state holding an adapter changes nothing. -/
theorem adapter_absent_at_create_constructed_once_witness :
    (runSynthOps [SynthOp.initOp c5Input]).constructions = 1 ∧
    applySynthOp ⟨some TtsAdapterKind.mock, 1⟩ SynthOp.termOp =
      (⟨some TtsAdapterKind.mock, 1⟩ : SynthLife) := by
  have h := adapter_absent_at_create_constructed_once [SynthOp.initOp c5Input]
  refine ⟨h.2.2.1 ?_, h.2.2.2 ⟨some TtsAdapterKind.mock, 1⟩ SynthOp.termOp ?_⟩
  · have hval : (runSynthOps [SynthOp.initOp c5Input]).ttsAdapter =
        some TtsAdapterKind.mock := rfl
    rw [hval]
    exact fun hc => Option.noConfusion hc
  · exact fun hc => Option.noConfusion hc

/-- Claim C2: for every text and isSsml flag, the blocking Speak executes the
full lifecycle template in the fixed order on the calling thread — push the
fresh request id into the queue, wait until it is the queue head, fire the
Started event for it, invoke the adapter's Speak, wait until the output sink
is done, fire the terminal (Completed or Canceled) event, release the queue
head — and returns only the terminal SynthesisResult produced by the
adapter, never the Started result. -/
theorem speak_blocking_lifecycle (s : OrchState) (adapter : Adapter) (text : String)
    (isSsml : Bool) (reqId : RequestId) (hq : s.requestQueue = [])
    (hterm : (adapter text isSsml reqId).reason = ResultReason.synthesizingAudioCompleted ∨
             (adapter text isSsml reqId).reason = ResultReason.canceled) :
    (speak s adapter text isSsml reqId).1 = setEvents (adapter text isSsml reqId) ∧
    (speak s adapter text isSsml reqId).1.reason ≠ ResultReason.synthesizingAudioStarted ∧
    (∃ k : EventKind,
      ((k = EventKind.completed ∧
          (adapter text isSsml reqId).reason = ResultReason.synthesizingAudioCompleted) ∨
       (k = EventKind.canceled ∧
          (adapter text isSsml reqId).reason = ResultReason.canceled)) ∧
      (speak s adapter text isSsml reqId).2.actions =
        s.actions ++
          [Action.pushRequest reqId, Action.waitFront reqId,
           Action.fireEvent EventKind.started
             (createResult reqId ResultReason.synthesizingAudioStarted [] 0),
           Action.adapterSpeak reqId text isSsml, Action.waitDone,
           Action.fireEvent k (setEvents (adapter text isSsml reqId)),
           Action.popRequest]) ∧
    (speak s adapter text isSsml reqId).2.requestQueue = [] := by
  rcases hterm with h | h
  · have h2 : (speak s adapter text isSsml reqId).1.reason =
        ResultReason.synthesizingAudioCompleted := h
    refine ⟨rfl, ?_, ⟨EventKind.completed, Or.inl ⟨rfl, h⟩, ?_⟩, ?_⟩
    · rw [h2]; decide
    · simp [speak, pushRequestIntoQueue, waitUntilRequestInFrontOfQueue,
        fireResultEvent, fireSynthesisStarted, fireSynthesisCompleted,
        fireSynthesisEvent, adapterSpeakCall, waitUntilDone, popRequestFromQueue,
        createResult, setEvents, h]
    · simp [speak, pushRequestIntoQueue, waitUntilRequestInFrontOfQueue,
        fireResultEvent, fireSynthesisStarted, fireSynthesisCompleted,
        fireSynthesisEvent, adapterSpeakCall, waitUntilDone, popRequestFromQueue,
        createResult, setEvents, h, hq]
  · have h2 : (speak s adapter text isSsml reqId).1.reason = ResultReason.canceled := h
    refine ⟨rfl, ?_, ⟨EventKind.canceled, Or.inr ⟨rfl, h⟩, ?_⟩, ?_⟩
    · rw [h2]; decide
    · simp [speak, pushRequestIntoQueue, waitUntilRequestInFrontOfQueue,
        fireResultEvent, fireSynthesisStarted, fireSynthesisCanceled,
        fireSynthesisEvent, adapterSpeakCall, waitUntilDone, popRequestFromQueue,
        createResult, setEvents, h]
    · simp [speak, pushRequestIntoQueue, waitUntilRequestInFrontOfQueue,
        fireResultEvent, fireSynthesisStarted, fireSynthesisCanceled,
        fireSynthesisEvent, adapterSpeakCall, waitUntilDone, popRequestFromQueue,
        createResult, setEvents, h, hq]

/-- Witness for C2 at a concrete orchestrator state and adapter. -/
theorem speak_blocking_lifecycle_witness :
    (speak orchInit sampleAdapter "hello" false 7).1 =
      setEvents (sampleAdapter "hello" false 7) ∧
    (speak orchInit sampleAdapter "hello" false 7).2.requestQueue = [] := by
  have h := speak_blocking_lifecycle orchInit sampleAdapter "hello" false 7 rfl (Or.inl rfl)
  exact ⟨h.1, h.2.2.2⟩

/-- Claim C6: StartSpeaking performs the admission and the Started firing
synchronously on the calling thread — the state at return extends the trace
by exactly push, wait-for-front and the Started fire, so the Started event
has fired and no terminal event has (every event fired in that window is of
the Started kind) — and its return value is the Started-reason result with
an AsyncOperation (status AOS_Started) attached, whose background
continuation later yields the adapter's terminal result. -/
theorem startSpeaking_sync_segment (s : OrchState) (adapter : Adapter) (text : String)
    (isSsml : Bool) (reqId : RequestId) (hq : s.requestQueue = []) :
    (startSpeaking s adapter text isSsml reqId).syncState.actions =
      s.actions ++
        [Action.pushRequest reqId, Action.waitFront reqId,
         Action.fireEvent EventKind.started
           (createResult reqId ResultReason.synthesizingAudioStarted [] 0)] ∧
    (startSpeaking s adapter text isSsml reqId).syncState.requestQueue = [reqId] ∧
    (∀ k res, Action.fireEvent k res ∈
        ((startSpeaking s adapter text isSsml reqId).syncState.actions.drop
          s.actions.length) →
      k = EventKind.started) ∧
    (startSpeaking s adapter text isSsml reqId).result =
      setFutureResult (createResult reqId ResultReason.synthesizingAudioStarted [] 0)
        ⟨AsyncOpStatus.aosStarted, reqId⟩ ∧
    (startSpeaking s adapter text isSsml reqId).result.reason =
      ResultReason.synthesizingAudioStarted ∧
    (startSpeaking s adapter text isSsml reqId).result.futureResult =
      some ⟨AsyncOpStatus.aosStarted, reqId⟩ ∧
    ((startSpeaking s adapter text isSsml reqId).background
        (startSpeaking s adapter text isSsml reqId).syncState).1 =
      setEvents (adapter text isSsml reqId) := by
  have hact : (startSpeaking s adapter text isSsml reqId).syncState.actions =
      s.actions ++
        [Action.pushRequest reqId, Action.waitFront reqId,
         Action.fireEvent EventKind.started
           (createResult reqId ResultReason.synthesizingAudioStarted [] 0)] := by
    simp [startSpeaking, pushRequestIntoQueue, waitUntilRequestInFrontOfQueue,
      fireResultEvent, fireSynthesisStarted, fireSynthesisEvent, createResult]
  refine ⟨hact, ?_, ?_, rfl, rfl, rfl, rfl⟩
  · simp [startSpeaking, pushRequestIntoQueue, waitUntilRequestInFrontOfQueue,
      fireResultEvent, fireSynthesisStarted, fireSynthesisEvent, createResult, hq]
  · intro k res hm
    rw [hact, List.drop_left] at hm
    simp only [List.mem_cons, List.not_mem_nil, or_false] at hm
    rcases hm with hm | hm | hm
    · exact Action.noConfusion hm
    · exact Action.noConfusion hm
    · injection hm

/-- Witness for C6 at a concrete orchestrator state and adapter. -/
theorem startSpeaking_sync_segment_witness :
    (startSpeaking orchInit sampleAdapter "hi" true 3).result.reason =
      ResultReason.synthesizingAudioStarted ∧
    (startSpeaking orchInit sampleAdapter "hi" true 3).result.futureResult =
      some ⟨AsyncOpStatus.aosStarted, 3⟩ := by
  have h := startSpeaking_sync_segment orchInit sampleAdapter "hi" true 3 rfl
  exact ⟨h.2.2.2.2.1, h.2.2.2.2.2.1⟩

/-! ## Lemmas for the admission-queue transition system -/

/-- Updating a request's phase changes that request's phase. -/
theorem setPhase_same (f : RequestId → Phase) (r : RequestId) (p : Phase) :
    setPhase f r p r = p := by
  simp [setPhase]

/-- Updating a request's phase leaves other requests' phases unchanged. -/
theorem setPhase_other (f : RequestId → Phase) (r x : RequestId) (p : Phase)
    (h : x ≠ r) : setPhase f r p x = f x := by
  simp [setPhase, h]

/-- A list whose optional head is known is a cons. -/
theorem head_eq_some_cons {l : List RequestId} {x : RequestId}
    (h : l.head? = some x) : ∃ tl, l = x :: tl := by
  cases l with
  | nil => cases h
  | cons a tl =>
      rw [List.head?_cons, Option.some.injEq] at h
      exact ⟨tl, by rw [h]⟩

/-- The invariant holds in the initial state. -/
theorem qInv_init : QInv qInit := by
  refine ⟨rfl, ?_, List.nodup_nil, ?_, rfl⟩
  · intro r
    simp [qInit, InQueuePhase]
  · intro r hr
    rcases hr with h1 | h1 | h1 <;> exact Phase.noConfusion h1

/-- Submitting a fresh request preserves the invariant. -/
theorem qInv_submit {s : QState} (inv : QInv s) {r : RequestId}
    (h : s.phase r = Phase.notSubmitted) : QInv (submitQ s r) := by
  have hnotin : r ∉ s.queue := by
    intro hin
    have hp := (inv.memq r).mp hin
    rw [h] at hp
    rcases hp with h1 | h1 | h1 | h1 <;> exact Phase.noConfusion h1
  refine ⟨?_, ?_, ?_, ?_, ?_⟩
  · show s.submitLog ++ [r] = s.releaseLog ++ (s.queue ++ [r])
    rw [inv.split, List.append_assoc]
  · intro x
    show x ∈ s.queue ++ [r] ↔ InQueuePhase (setPhase s.phase r Phase.waiting x)
    by_cases hx : x = r
    · subst hx
      rw [setPhase_same]
      simp [InQueuePhase]
    · rw [setPhase_other _ _ _ _ hx]
      constructor
      · intro hmem
        rcases List.mem_append.mp hmem with hm | hm
        · exact (inv.memq x).mp hm
        · exact absurd (List.mem_singleton.mp hm) hx
      · intro hp
        exact List.mem_append.mpr (Or.inl ((inv.memq x).mpr hp))
  · show (s.queue ++ [r]).Nodup
    rw [List.nodup_append]
    refine ⟨inv.nodup, List.nodup_singleton r, ?_⟩
    intro a ha hb
    rw [List.mem_singleton] at hb
    subst hb
    exact hnotin ha
  · intro x hx
    simp only [submitQ] at hx
    show (s.queue ++ [r]).head? = some x
    by_cases hxr : x = r
    · subst hxr
      rw [setPhase_same] at hx
      rcases hx with h1 | h1 | h1 <;> exact Phase.noConfusion h1
    · rw [setPhase_other _ _ _ _ hxr] at hx
      obtain ⟨tl, hql⟩ := head_eq_some_cons (inv.front x hx)
      rw [hql]
      rfl
  · show s.startedLog = s.releaseLog ++ frontStarted (submitQ s r)
    rw [inv.started]
    have hfs : frontStarted (submitQ s r) = frontStarted s := by
      rcases hq : s.queue with _ | ⟨a, qs⟩
      · simp [frontStarted, submitQ, hq, setPhase_same]
      · have har : a ≠ r := by
          intro he
          subst he
          exact hnotin (by rw [hq]; exact List.mem_cons_self _ _)
        simp [frontStarted, submitQ, hq, setPhase_other _ _ _ _ har]
    rw [hfs]

/-- A waiting request at the queue front passing its wait preserves the
invariant. -/
theorem qInv_enter {s : QState} (inv : QInv s) {r : RequestId}
    (h : s.phase r = Phase.waiting) (hq : s.queue.head? = some r) :
    QInv (enterQ s r) := by
  obtain ⟨tl, hql⟩ := head_eq_some_cons hq
  refine ⟨inv.split, ?_, inv.nodup, ?_, ?_⟩
  · intro x
    show x ∈ s.queue ↔ InQueuePhase (setPhase s.phase r Phase.entered x)
    by_cases hx : x = r
    · subst hx
      rw [setPhase_same]
      constructor
      · intro _
        simp [InQueuePhase]
      · intro _
        rw [hql]
        exact List.mem_cons_self _ _
    · rw [setPhase_other _ _ _ _ hx]
      exact inv.memq x
  · intro x hx
    simp only [enterQ] at hx
    show s.queue.head? = some x
    by_cases hxr : x = r
    · subst hxr
      exact hq
    · rw [setPhase_other _ _ _ _ hxr] at hx
      have hfx := inv.front x hx
      rw [hfx] at hq
      rw [Option.some.injEq] at hq
      exact absurd hq hxr
  · show s.startedLog = s.releaseLog ++ frontStarted (enterQ s r)
    rw [inv.started]
    have hfs : frontStarted (enterQ s r) = frontStarted s := by
      simp [frontStarted, enterQ, hql, setPhase_same, h]
    rw [hfs]

/-- The front request firing its Started event preserves the invariant. -/
theorem qInv_fireStarted {s : QState} (inv : QInv s) {r : RequestId}
    (h : s.phase r = Phase.entered) : QInv (fireStartedQ s r) := by
  have hq : s.queue.head? = some r := inv.front r (Or.inl h)
  obtain ⟨tl, hql⟩ := head_eq_some_cons hq
  refine ⟨inv.split, ?_, inv.nodup, ?_, ?_⟩
  · intro x
    show x ∈ s.queue ↔ InQueuePhase (setPhase s.phase r Phase.startedFired x)
    by_cases hx : x = r
    · subst hx
      rw [setPhase_same]
      constructor
      · intro _
        simp [InQueuePhase]
      · intro _
        rw [hql]
        exact List.mem_cons_self _ _
    · rw [setPhase_other _ _ _ _ hx]
      exact inv.memq x
  · intro x hx
    simp only [fireStartedQ] at hx
    show s.queue.head? = some x
    by_cases hxr : x = r
    · subst hxr
      exact hq
    · rw [setPhase_other _ _ _ _ hxr] at hx
      have hfx := inv.front x hx
      rw [hfx] at hq
      rw [Option.some.injEq] at hq
      exact absurd hq hxr
  · show s.startedLog ++ [r] = s.releaseLog ++ frontStarted (fireStartedQ s r)
    have h1 : frontStarted s = [] := by
      simp [frontStarted, hql, h]
    have h2 : frontStarted (fireStartedQ s r) = [r] := by
      simp [frontStarted, fireStartedQ, hql, setPhase_same]
    rw [inv.started, h1, h2, List.append_nil]

/-- The front request finishing its adapter invocation, drain and terminal
fire preserves the invariant. -/
theorem qInv_finish {s : QState} (inv : QInv s) {r : RequestId}
    (h : s.phase r = Phase.startedFired) : QInv (finishQ s r) := by
  have hq : s.queue.head? = some r := inv.front r (Or.inr (Or.inl h))
  obtain ⟨tl, hql⟩ := head_eq_some_cons hq
  refine ⟨inv.split, ?_, inv.nodup, ?_, ?_⟩
  · intro x
    show x ∈ s.queue ↔ InQueuePhase (setPhase s.phase r Phase.terminalFired x)
    by_cases hx : x = r
    · subst hx
      rw [setPhase_same]
      constructor
      · intro _
        simp [InQueuePhase]
      · intro _
        rw [hql]
        exact List.mem_cons_self _ _
    · rw [setPhase_other _ _ _ _ hx]
      exact inv.memq x
  · intro x hx
    simp only [finishQ] at hx
    show s.queue.head? = some x
    by_cases hxr : x = r
    · subst hxr
      exact hq
    · rw [setPhase_other _ _ _ _ hxr] at hx
      have hfx := inv.front x hx
      rw [hfx] at hq
      rw [Option.some.injEq] at hq
      exact absurd hq hxr
  · show s.startedLog = s.releaseLog ++ frontStarted (finishQ s r)
    rw [inv.started]
    have hfs : frontStarted (finishQ s r) = frontStarted s := by
      simp [frontStarted, finishQ, hql, setPhase_same, h]
    rw [hfs]

/-- The front request releasing the queue head preserves the invariant. -/
theorem qInv_release {s : QState} (inv : QInv s) {r : RequestId}
    (h : s.phase r = Phase.terminalFired) : QInv (releaseQ s r) := by
  have hq : s.queue.head? = some r := inv.front r (Or.inr (Or.inr h))
  obtain ⟨tl, hql⟩ := head_eq_some_cons hq
  have hnotin : r ∉ tl := by
    have hn := inv.nodup
    rw [hql] at hn
    exact (List.nodup_cons.mp hn).1
  have htail : (releaseQ s r).queue = tl := by
    simp [releaseQ, hql]
  refine ⟨?_, ?_, ?_, ?_, ?_⟩
  · show s.submitLog = (s.releaseLog ++ [r]) ++ (releaseQ s r).queue
    rw [htail, inv.split, hql, List.append_assoc, List.singleton_append]
  · intro x
    rw [show ((x ∈ (releaseQ s r).queue) = (x ∈ tl)) from congrArg _ htail]
    show x ∈ tl ↔ InQueuePhase (setPhase s.phase r Phase.released x)
    by_cases hx : x = r
    · subst hx
      rw [setPhase_same]
      constructor
      · intro hmem
        exact absurd hmem hnotin
      · intro hp
        rcases hp with h1 | h1 | h1 | h1 <;> exact Phase.noConfusion h1
    · rw [setPhase_other _ _ _ _ hx]
      have hmq := inv.memq x
      rw [hql] at hmq
      constructor
      · intro hm
        exact hmq.mp (List.mem_cons_of_mem _ hm)
      · intro hp
        rcases List.mem_cons.mp (hmq.mpr hp) with he | hm
        · exact absurd he hx
        · exact hm
  · show (releaseQ s r).queue.Nodup
    rw [htail]
    have hn := inv.nodup
    rw [hql] at hn
    exact (List.nodup_cons.mp hn).2
  · intro x hx
    simp only [releaseQ] at hx
    by_cases hxr : x = r
    · subst hxr
      rw [setPhase_same] at hx
      rcases hx with h1 | h1 | h1 <;> exact Phase.noConfusion h1
    · rw [setPhase_other _ _ _ _ hxr] at hx
      have hfx := inv.front x hx
      rw [hfx] at hq
      rw [Option.some.injEq] at hq
      exact absurd hq hxr
  · show s.startedLog = (s.releaseLog ++ [r]) ++ frontStarted (releaseQ s r)
    have h1 : frontStarted s = [r] := by
      simp [frontStarted, hql, h]
    have h2 : frontStarted (releaseQ s r) = [] := by
      rcases htl : tl with _ | ⟨b, tl2⟩
      · rw [htl] at htail
        simp [frontStarted, htail]
      · have hbr : b ≠ r := by
          rintro rfl
          exact hnotin (by rw [htl]; exact List.mem_cons_self _ _)
        have hbp : ¬(s.phase b = Phase.startedFired ∨ s.phase b = Phase.terminalFired) := by
          intro hb
          have hact : ActivePhase (s.phase b) := by
            rcases hb with hb | hb
            · exact Or.inr (Or.inl hb)
            · exact Or.inr (Or.inr hb)
          have hfb := inv.front b hact
          rw [hfb] at hq
          rw [Option.some.injEq] at hq
          exact hbr hq
        rw [htl] at htail
        have hpb : (releaseQ s r).phase b = s.phase b := by
          simp [releaseQ, setPhase_other _ _ _ _ hbr]
        simp only [frontStarted, htail, hpb]
        rw [if_neg hbp]
    rw [inv.started, h1, h2, List.append_nil]

/-- Every interleaved step preserves the invariant. -/
theorem qInv_step {s t : QState} (inv : QInv s) (st : QStep s t) : QInv t := by
  cases st with
  | submit r h => exact qInv_submit inv h
  | enter r h hq => exact qInv_enter inv h hq
  | fireStarted r h => exact qInv_fireStarted inv h
  | finish r h => exact qInv_finish inv h
  | release r h => exact qInv_release inv h

/-- The invariant holds in every reachable state. -/
theorem reach_qInv {s : QState} (h : Reach s) : QInv s := by
  induction h with
  | refl => exact qInv_init
  | step _ hs ih => exact qInv_step ih hs

/-- The front-started portion is a prefix of the queue. -/
theorem frontStarted_le_queue (s : QState) : frontStarted s <+: s.queue := by
  rcases hq : s.queue with _ | ⟨a, tl⟩
  · simp [frontStarted, hq]
  · by_cases hc : s.phase a = Phase.startedFired ∨ s.phase a = Phase.terminalFired
    · rw [show frontStarted s = [a] by simp [frontStarted, hq, hc]]
      exact ⟨tl, rfl⟩
    · rw [show frontStarted s = [] by simp [frontStarted, hq, hc]]
      exact ⟨a :: tl, rfl⟩

/-- Claim C1: in every state reachable by any interleaving of concurrently
submitted requests (the per-request template steps cover all four calling
conventions, which differ only in the thread running each step), the
sequence of requests whose Started events have fired, in firing order, is a
prefix of the submission sequence (the order of PushRequestIntoQueue) — so
Started events fire exactly in submission order — and no two requests are
simultaneously inside their adapter-invocation windows (between
WaitUntilRequestInFrontOfQueue returning and PopRequestFromQueue). -/
theorem started_order_and_window_exclusion (s : QState) (h : Reach s) :
    s.startedLog <+: s.submitLog ∧
    (∀ r x, ActiveWindow s r → ActiveWindow s x → r = x) := by
  have inv := reach_qInv h
  constructor
  · rw [inv.started, inv.split]
    obtain ⟨t2, ht⟩ := frontStarted_le_queue s
    exact ⟨t2, by rw [List.append_assoc, ht]⟩
  · intro r x hr hx
    have h1 := inv.front r hr
    have h2 := inv.front x hx
    rw [h1, Option.some.injEq] at h2
    exact h2

/-- Witness for C1: a concrete reachable state in which request 0 has been
submitted, has passed its wait and has fired Started. -/
theorem started_order_and_window_exclusion_witness :
    Reach (fireStartedQ (enterQ (submitQ qInit 0) 0) 0) ∧
    (fireStartedQ (enterQ (submitQ qInit 0) 0) 0).startedLog <+:
      (fireStartedQ (enterQ (submitQ qInit 0) 0) 0).submitLog := by
  have hreach : Reach (fireStartedQ (enterQ (submitQ qInit 0) 0) 0) :=
    Reach.step
      (Reach.step (Reach.step Reach.refl (QStep.submit qInit 0 rfl))
        (QStep.enter (submitQ qInit 0) 0 rfl rfl))
      (QStep.fireStarted (enterQ (submitQ qInit 0) 0) 0 rfl)
  exact ⟨hreach, (started_order_and_window_exclusion _ hreach).1⟩

end SpxSynthesizer
